import Mathlib

/-!
Verification of the budget app's classification engine and background task
runner (`src/classifiers/auto_classify.py`, `src/super_fast_classifier.py`,
`src/fast_llm_classifier.py`, `src/background_tasks_fixed.py`).

Shallow embedding conventions:
* Python `float` amounts and confidences are modelled as `ℚ` (the program only
  compares and combines small decimal literals).
* Python strings are Lean `String`s; `str.upper()` / `str.strip()` are modelled
  per character (`pyUpperChar` covers ASCII plus the Swedish letters that occur
  in the sources).
* The regexes in the rule tables use only a handful of constructs (plain
  literals, `\s`, `\s*`, `\b ... \b`, `^...$`, `.*`); they are embedded as the
  `Pat` datatype whose `search` function gives `re.search` semantics for
  exactly those shapes.
* Database rows are records, the task store is a list of rows, timestamps are
  modelled as "was set" flags, and each SQL statement is a list transformation.
-/

namespace Budget

/-! ### Python string primitives -/

/-- Python `\s` / `str.strip()` whitespace (ASCII part; the descriptions and
patterns in the sources contain no exotic Unicode spaces). -/
def isPySpace (c : Char) : Bool :=
  c = ' ' || c = '\t' || c = '\n' || c = '\r' || c = '\x0b' || c = '\x0c'

/-- Python regex word character (`\w`): alphanumerics and underscore; the
Swedish letters appearing in the sources are word characters in Python's
Unicode-aware `re`. -/
def isWordChar (c : Char) : Bool :=
  c.isAlphanum || c = '_' ||
  c = 'Å' || c = 'Ä' || c = 'Ö' || c = 'å' || c = 'ä' || c = 'ö' || c = 'É' || c = 'é'

/-- `str.upper()` per character: ASCII case mapping plus the non-ASCII letters
used by the repository's rule tables and test data. -/
def pyUpperChar (c : Char) : Char :=
  if c = 'å' then 'Å'
  else if c = 'ä' then 'Ä'
  else if c = 'ö' then 'Ö'
  else if c = 'é' then 'É'
  else c.toUpper

/-- `str.upper()`. -/
def pyUpper (s : String) : String := s.map pyUpperChar

/-- `str.strip()`: drop leading and trailing whitespace. -/
def pyStrip (s : String) : String :=
  ⟨((s.data.dropWhile isPySpace).reverse.dropWhile isPySpace).reverse⟩

/-- Does `pat` occur as a prefix of `s`? -/
def litAt : List Char → List Char → Bool
  | [], _ => true
  | _ :: _, [] => false
  | a :: as, b :: bs => a = b && litAt as bs

/-- Does the literal `pat` occur anywhere in `s` (`re.search` on a
metacharacter-free pattern)? -/
def containsLit : List Char → List Char → Bool
  | pat, [] => litAt pat []
  | pat, c :: rest => litAt pat (c :: rest) || containsLit pat rest

/-- Search for literal `a` immediately followed by one whitespace character
(`re.search(r"a\s", s)`). -/
def searchLitWs (pat : List Char) : List Char → Bool
  | [] => false
  | c :: rest =>
    (litAt pat (c :: rest) &&
      match (c :: rest).drop pat.length with
      | d :: _ => isPySpace d
      | [] => false) ||
    searchLitWs pat rest

/-- Search for literal `b` with no newline before it (continuation of a `.*`
segment: `.` does not match `\n` in Python). -/
def searchLitNoNL (pat : List Char) : List Char → Bool
  | [] => litAt pat []
  | c :: rest => litAt pat (c :: rest) || (!(c = '\n') && searchLitNoNL pat rest)

/-- Search for `a.*b` (`re.search`): an occurrence of `a`, then, with no
intervening newline, an occurrence of `b` starting at or after the end of `a`. -/
def searchDotStar (a b : List Char) : List Char → Bool
  | [] => litAt a [] && searchLitNoNL b []
  | c :: rest =>
    (litAt a (c :: rest) && searchLitNoNL b ((c :: rest).drop a.length)) ||
    searchDotStar a b rest

/-- Search for `\b pat \b` where `pat` consists of word characters (true of
every such pattern in the sources): an occurrence of `pat` preceded by
start-of-string or a non-word character and followed by end-of-string or a
non-word character.  `prev` is the character before the current position. -/
def searchWord (pat : List Char) (prev : Option Char) : List Char → Bool
  | [] => false
  | c :: rest =>
    ((match prev with
      | none => true
      | some p => !isWordChar p) &&
     litAt pat (c :: rest) &&
      (match (c :: rest).drop pat.length with
      | [] => true
      | d :: _ => !isWordChar d)) ||
    searchWord pat (some c) rest

/-- Search for `a\s*b` where `b` starts with a non-whitespace character (true
of the two such patterns in the sources, `CIRCLE\s*K` and `CLAS\s*OHLSON`):
an occurrence of `a`, any run of whitespace, then `b`. -/
def searchWsStar (a b : List Char) : List Char → Bool
  | [] => litAt a [] && litAt b []
  | c :: rest =>
    (litAt a (c :: rest) && litAt b (((c :: rest).drop a.length).dropWhile isPySpace)) ||
    searchWsStar a b rest

/-- The regex shapes occurring in the classifier rule tables. -/
inductive Pat
  /-- a metacharacter-free literal, e.g. `r"ICA"` -/
  | lit (s : String)
  /-- `r"s\s"` -/
  | litWs (s : String)
  /-- `r"^s$"` -/
  | exactly (s : String)
  /-- `r"a.*b"` -/
  | dotStar (a b : String)
  /-- `r"\bs\b"` -/
  | word (s : String)
  /-- `r"a\s*b"` -/
  | wsStar (a b : String)
  deriving DecidableEq, Repr

/-- `re.search(pattern, s)` as a Boolean, for the shapes in `Pat`.
For `exactly` (i.e. `^s$`), Python's `$` also matches just before a final
newline. -/
def Pat.search (p : Pat) (s : String) : Bool :=
  match p with
  | .lit a => containsLit a.data s.data
  | .litWs a => searchLitWs a.data s.data
  | .exactly a => s.data = a.data || s.data = a.data ++ ['\n']
  | .dotStar a b => searchDotStar a.data b.data s.data
  | .word a => searchWord a.data none s.data
  | .wsStar a b => searchWsStar a.data b.data s.data

/-! ### Transactions -/

/-- The fields of a transaction dict that the classifiers read
(`transaction.get('description', '')`, `transaction.get('amount', 0)`). -/
structure Tx where
  description : String
  amount : ℚ
  deriving DecidableEq, Repr

/-! ### RuleBasedClassifier (`auto_classify.py`, the "PatternClassifier")

The two copies of `RuleBasedClassifier` (in `src/auto_classify.py` and
`src/classifiers/auto_classify.py`) have byte-identical rule tables and
`classify` bodies; one embedding serves both. -/

/-- `"amount_filter"` values. -/
inductive AmountFilter
  | positive
  | negative
  deriving DecidableEq, Repr

/-- One entry of `RuleBasedClassifier._load_default_rules()`. -/
structure Rule where
  patterns : List Pat
  category : String
  confidence : ℚ
  amountFilter : Option AmountFilter := none
  deriving DecidableEq, Repr

/-- `RuleBasedClassifier._load_default_rules()`, transcribed. -/
def defaultRules : List Rule :=
  [ -- Food & Groceries
    ⟨[.lit "ICA", .lit "COOP", .lit "HEMKÖP", .lit "WILLYS", .lit "LIDL", .lit "NETTO"],
      "Mat", 9/10, none⟩,
    ⟨[.lit "SYSTEMBOLAGET", .lit "SYSTEMBOLAGE"], "Mat", 19/20, none⟩,
    -- Transportation
    ⟨[.litWs "SL", .exactly "SL", .dotStar "PRESSBYRÅN" "SL"], "Transport", 9/10, none⟩,
    ⟨[.lit "SHELL", .lit "OKQ8", .lit "PREEM", .lit "CIRCLE K", .lit "QSTAR"],
      "Transport", 17/20, none⟩,
    ⟨[.lit "PARKERING", .lit "P-HUS", .lit "APCOA"], "Transport", 4/5, none⟩,
    -- Healthcare
    ⟨[.lit "APOTEKET", .lit "APOTEK", .lit "VÅRDCENTRAL", .lit "FOLKTANDVÅRD"],
      "Hälsa", 9/10, none⟩,
    -- Entertainment & Dining
    ⟨[.lit "RESTAURANG", .lit "CAFÉ", .lit "PIZZERIA", .lit "SUSHI"], "Nöje", 4/5, none⟩,
    ⟨[.lit "CINEMA", .lit "FILMSTADEN", .lit "SF BIO"], "Nöje", 9/10, none⟩,
    -- Housing
    ⟨[.lit "HYRA", .lit "ELNÄT", .lit "VATTENFALL", .lit "TELIA", .lit "BREDBAND"],
      "Boende", 17/20, none⟩,
    -- Income
    ⟨[.lit "LÖN", .lit "SALARY", .lit "PENSION"], "Inkomst", 19/20, some .positive⟩ ]

/-- The amount-filter check at the top of the rule loop: `continue` (skip the
rule) when the filter is `positive` and `amount <= 0`, or `negative` and
`amount >= 0`. -/
def ruleFilterOk (r : Rule) (amount : ℚ) : Bool :=
  match r.amountFilter with
  | none => true
  | some .positive => !(amount ≤ 0)
  | some .negative => !(amount ≥ 0)

/-- Does any pattern of the rule match the (already uppercased) description?
The `break` in the inner loop fires only after a successful update, but a
second matching pattern of the same rule would redo the identical comparison,
so the loop is equivalent to `any`. -/
def ruleMatches (r : Rule) (desc : String) : Bool :=
  r.patterns.any fun p => p.search desc

/-- One iteration of the rule loop in `RuleBasedClassifier.classify`: keep the
rule iff it passes the amount filter, some pattern matches, and its confidence
is strictly higher than the best seen so far. -/
def ruleStep (desc : String) (amount : ℚ) (best : Option String × ℚ) (r : Rule) :
    Option String × ℚ :=
  if ruleFilterOk r amount then
    if ruleMatches r desc then
      if r.confidence > best.2 then (some r.category, r.confidence) else best
    else best
  else best

/-- `RuleBasedClassifier.classify` body, after `description = ....upper()`. -/
def ruleClassifyCore (rules : List Rule) (desc : String) (amount : ℚ) :
    Option String × ℚ :=
  rules.foldl (ruleStep desc amount) (none, 0)

/-- `RuleBasedClassifier.classify` (spec name: `PatternClassifier.classify`). -/
def ruleBasedClassify (rules : List Rule) (tx : Tx) : Option String × ℚ :=
  ruleClassifyCore rules (pyUpper tx.description) tx.amount

/-- The rules that actually fire on a transaction: amount filter satisfied and
some pattern matches the uppercased description. -/
def matchingRules (rules : List Rule) (tx : Tx) : List Rule :=
  rules.filter fun r =>
    ruleFilterOk r tx.amount && ruleMatches r (pyUpper tx.description)

/-- Highest confidence among a list of rules (0 when empty). -/
def maxConf (l : List Rule) : ℚ :=
  l.foldl (fun a r => max a r.confidence) 0

/-! ### SuperFastClassifier (`super_fast_classifier.py`, spec name
`HybridFastClassifier`)

`self.rule_classifier` is a `RuleBasedClassifier` (imported from the top-level
`auto_classify.py`, whose rule table is identical to the one above).
`self.llm_classifier` is a `FastLLMClassifier` or `None`; it is modelled as an
optional oracle `llm : Option (Tx → Option String × ℚ)`.  The running
performance counters (`self.stats`) never influence the returned
classification and are not modelled. -/

/-- One group of `SuperFastClassifier._build_enhanced_patterns()`. -/
structure InstantGroup where
  patterns : List Pat
  category : String
  confidence : ℚ
  deriving DecidableEq, Repr

/-- `SuperFastClassifier._build_enhanced_patterns()`, transcribed. -/
def instantPatterns : List InstantGroup :=
  [ -- Grocery stores
    ⟨[.word "ICA", .word "COOP", .word "HEMKÖP", .word "WILLYS",
      .word "LIDL", .word "NETTO", .word "MAXI", .word "STORE"], "Mat", 19/20⟩,
    -- Transportation
    ⟨[.word "SL", .litWs "SL", .dotStar "PRESSBYRÅN" "SL", .word "MTR",
      .lit "SHELL", .lit "OKQ8", .lit "PREEM", .wsStar "CIRCLE" "K", .lit "QSTAR", .lit "ST1",
      .lit "PARKERING", .lit "P-HUS", .lit "APCOA", .lit "TAXI"], "Transport", 9/10⟩,
    -- Restaurants and entertainment
    ⟨[.lit "MCDONALD", .lit "BURGER", .lit "PIZZA", .lit "RESTAURANG", .lit "CAFÉ",
      .lit "ESPRESSO", .lit "KFC", .litWs "MAX", .lit "SUBWAY", .lit "SUSHI",
      .lit "THAI", .lit "INDIAN"], "Nöje", 22/25⟩,
    -- Alcohol
    ⟨[.lit "SYSTEMBOLAGET", .lit "SYSTEMBOLAGE"], "Mat", 19/20⟩,
    -- Healthcare
    ⟨[.lit "APOTEKET", .lit "APOTEK", .lit "VÅRDCENTRAL", .lit "FOLKTANDVÅRD",
      .lit "TANDLÄKARE", .lit "LÄKARE"], "Hälsa", 23/25⟩,
    -- Utilities and housing
    ⟨[.lit "VATTENFALL", .lit "ELNÄT", .lit "ELHANDEL", .lit "HYRA", .lit "BREDBAND",
      .lit "TELIA", .lit "TELENOR", .lit "COMHEM", .lit "FÖRSÄKRING"], "Boende", 9/10⟩,
    -- Common retail (the source's `r"KLäDER"` has a lowercase `ä` and is
    -- transcribed verbatim; it can never match an uppercased description)
    ⟨[.lit "H&M", .lit "ZARA", .lit "KLäDER", .lit "IKEA", .lit "ELGIGANTEN",
      .lit "MEDIAMARKT", .wsStar "CLAS" "OHLSON"], "Övriga", 17/20⟩ ]

/-- One iteration of the pattern-group loop in
`SuperFastClassifier._classify_with_patterns`: a group wins iff some pattern
matches, its confidence beats the best so far, and its category exists in
`logic.get_categories()` (`cats`).  As with the rule loop, the `break` fires
only on a successful update, and re-testing the same group is idempotent, so
the inner loop is equivalent to `any`. -/
def instantStep (cats : List String) (desc : String) (best : Option String × ℚ)
    (g : InstantGroup) : Option String × ℚ :=
  if g.patterns.any (fun p => p.search desc) then
    if g.confidence > best.2 then
      if g.category ∈ cats then (some g.category, g.confidence) else best
    else best
  else best

/-- `SuperFastClassifier._classify_with_patterns`. -/
def classifyWithPatterns (cats : List String) (desc : String) : Option String × ℚ :=
  instantPatterns.foldl (instantStep cats (pyUpper desc)) (none, 0)

/-- `str.split()` with no separator: split on whitespace runs, no empties.
`acc` accumulates the current (reversed) word. -/
def pySplitGo : List Char → List Char → List (List Char)
  | [], acc => if acc.isEmpty then [] else [acc.reverse]
  | c :: cs, acc =>
    if isPySpace c then
      if acc.isEmpty then pySplitGo cs [] else acc.reverse :: pySplitGo cs []
    else pySplitGo cs (c :: acc)

/-- `description.split()`. -/
def pySplitWs (s : String) : List String :=
  (pySplitGo s.data []).map fun l => ⟨l⟩

/-- The `ambiguous_terms` list of `SuperFastClassifier._should_use_llm`. -/
def ambiguousTerms : List String := ["BETALNING", "KÖPT", "SWISH", "KORT", "ONLINE"]

/-- `SuperFastClassifier._should_use_llm(description, rule_confidence)`;
`hasLLM` is `self.llm_classifier is not None`. -/
def shouldUseLLM (hasLLM : Bool) (desc : String) (ruleConfidence : ℚ) : Bool :=
  if !hasLLM then false
  else if ruleConfidence < 7/10 then true
  else if 4 < (pySplitWs desc).length then true
  else if ambiguousTerms.any (fun t => containsLit t.data (pyUpper desc).data) then true
  else false

/-- `SuperFastClassifier.classify`: tier 1 = instant patterns (accept at
confidence ≥ 0.85), tier 2 = the rule-based classifier (accept at ≥ 0.8),
tier 3 = the LLM, consulted only when `_should_use_llm` fires, and preferred
only when strictly more confident than `max(rule_confidence, 0.6)`; otherwise
fall back to the tier-2 result when its category is non-`None`. -/
def superFastClassify (cats : List String) (llm : Option (Tx → Option String × ℚ))
    (tx : Tx) : Option String × ℚ :=
  let description := pyStrip tx.description
  if description.length < 3 then (none, 0)
  else
    let step1 := classifyWithPatterns cats description
    if step1.1.isSome && step1.2 ≥ 17/20 then step1
    else
      let ruleRes := ruleBasedClassify defaultRules tx
      if ruleRes.1.isSome && ruleRes.2 ≥ 4/5 then ruleRes
      else
        let fallback : Option String × ℚ := if ruleRes.1.isSome then ruleRes else (none, 0)
        if shouldUseLLM llm.isSome description ruleRes.2 then
          match llm with
          | some f =>
            let lr := f tx
            if lr.1.isSome && lr.2 > max ruleRes.2 (3/5) then lr else fallback
          | none => fallback
        else fallback

/-- `logic.get_categories()` of the `MockLogic` used by the repository's
`benchmark_super_fast()`. -/
def mockCategories : List String :=
  ["Mat", "Transport", "Nöje", "Boende", "Hälsa", "Övriga", "Uncategorized"]

/-! ### LearningClassifier (`auto_classify.py`, spec name `LearnedClassifier`)

`self.category_patterns` is built once at construction from the classified
set; `classify` only reads it.  It is modelled as an association list
`pats : List (String × CatPattern)` (Python dict iteration order = insertion
order), and `classify` is verified for every profile set with the properties
`_build_patterns` guarantees (nonnegative standard deviation). -/

/-- One value of `self.category_patterns`. -/
structure CatPattern where
  commonWords : List String
  avgAmount : ℚ
  amountStd : ℚ
  transactionCount : ℕ
  deriving DecidableEq, Repr

/-- Is the character in the class `[A-ZÅÄÖ]` of the word-extraction regex? -/
def isUpperClass (c : Char) : Bool :=
  ('A' ≤ c && c ≤ 'Z') || c = 'Å' || c = 'Ä' || c = 'Ö'

/-- Maximal runs of word characters of a string, left to right (`acc` is the
current run, reversed). -/
def wordRunsGo : List Char → List Char → List (List Char)
  | [], acc => if acc.isEmpty then [] else [acc.reverse]
  | c :: cs, acc =>
    if isWordChar c then wordRunsGo cs (c :: acc)
    else if acc.isEmpty then wordRunsGo cs [] else acc.reverse :: wordRunsGo cs []

/-- `re.findall(r'\b[A-ZÅÄÖ]{3,}\b', s)`: a match is exactly a maximal run of
word characters that consists only of `[A-ZÅÄÖ]` and has length ≥ 3 (a run
containing any other word character yields no match because `\b` cannot fall
inside a run, and `{3,}` is greedy). -/
def findallUpperWords (s : String) : List String :=
  ((wordRunsGo s.data []).filter fun r => 3 ≤ r.length && r.all isUpperClass).map
    fun l => ⟨l⟩

/-- `set(re.findall(r'\b[A-ZÅÄÖ]{3,}\b', description))` for the uppercased
description (the `words` local of `LearningClassifier.classify`). -/
def descWords (tx : Tx) : List String :=
  (findallUpperWords (pyUpper tx.description)).dedup

/-- The score of one candidate category in `LearningClassifier.classify`:
word-overlap term (added only when the category has common words), amount
term (added only when the stored standard deviation is positive), plus the
volume boost. -/
def lcScore (p : CatPattern) (words : List String) (amount : ℚ) : ℚ :=
  let wordMatches : ℚ := ((words.filter fun w => p.commonWords.contains w).length : ℚ)
  let s1 : ℚ := if !p.commonWords.isEmpty then wordMatches / (p.commonWords.length : ℚ) * (7/10) else 0
  let s2 : ℚ :=
    if p.amountStd > 0 then max 0 (1 - |amount - p.avgAmount| / (p.amountStd * 2)) * (3/10)
    else 0
  s1 + s2 + min (1/10) ((p.transactionCount : ℚ) / 100)

/-- The scoring formula exactly as the specification words it:
`0.7 × (overlap ÷ word-set size) + 0.3 × max(0, 1 − |amount − mean| / (2 × stddev))`
(the amount term omitted when the stddev is 0) `+ min(0.1, sample count/100)`.
(In `ℚ`, division by zero is zero, so the first term needs no side condition.) -/
def lcScoreSpec (p : CatPattern) (words : List String) (amount : ℚ) : ℚ :=
  (7/10) * (((words.filter fun w => p.commonWords.contains w).length : ℚ) / (p.commonWords.length : ℚ)) +
    (if p.amountStd = 0 then 0 else (3/10) * max 0 (1 - |amount - p.avgAmount| / (2 * p.amountStd))) +
    min (1/10) ((p.transactionCount : ℚ) / 100)

/-- The best-candidate loop of `LearningClassifier.classify`
(`if score > best_score: best_category, best_score = category, score`). -/
def lcStep (words : List String) (amount : ℚ) (best : Option String × ℚ)
    (cp : String × CatPattern) : Option String × ℚ :=
  if lcScore cp.2 words amount > best.2 then (some cp.1, lcScore cp.2 words amount) else best

/-- `LearningClassifier.classify`. -/
def learningClassify (pats : List (String × CatPattern)) (tx : Tx) : Option String × ℚ :=
  if pats.isEmpty then (none, 0)
  else
    let best := pats.foldl (lcStep (descWords tx) tx.amount) (none, 0)
    if best.2 > 2/5 then (best.1, min best.2 (19/20)) else (none, 0)

/-- Highest candidate score over a profile set (0 when empty). -/
def maxLcScore (pats : List (String × CatPattern)) (words : List String) (amount : ℚ) : ℚ :=
  pats.foldl (fun a cp => max a (lcScore cp.2 words amount)) 0

/-! ### FastLLMClassifier (`fast_llm_classifier.py`)

The network call and the JSON parsing of the reply
(`_call_ollama_api_fast` / `_parse_fast_response`) are external I/O; a
`classify` call is parametrised by their combined outcome
`api : Option (Option String × ℚ)` — `none` models "no response / exception",
`some (cat?, conf)` a parsed reply (with `cat? = none` for a falsy or unknown
category, matching `_parse_fast_response`'s contract of returning only known
categories).  The `md5` of `f"{normalized}:{rounded_amount}"` in
`_get_cache_key` is injective on its input up to hash collisions and is
modelled by the pre-hash pair `(normalized, rounded_amount)` itself. -/

/-- Python `round(q)`: round half to even. -/
def pyRoundHalfEven (q : ℚ) : ℤ :=
  if q - ⌊q⌋ < 1/2 then ⌊q⌋
  else if q - ⌊q⌋ > 1/2 then ⌊q⌋ + 1
  else if Even ⌊q⌋ then ⌊q⌋ else ⌊q⌋ + 1

/-- Python `round(amount, -1)`: round to the nearest multiple of 10. -/
def pyRound10 (q : ℚ) : ℚ := 10 * (pyRoundHalfEven (q / 10) : ℚ)

/-- `FastLLMClassifier._get_cache_key(description, amount)`:
`(description.upper().strip(), round(amount, -1))` (standing in for its md5). -/
def cacheKey (description : String) (amount : ℚ) : String × ℚ :=
  (pyStrip (pyUpper description), pyRound10 amount)

/-- The `OrderedDict` response cache, oldest first. -/
def LLMCache : Type := List ((String × ℚ) × (String × ℚ))

/-- Dict lookup (`cache_key in self.response_cache` + read). -/
def cacheGet (st : LLMCache) (k : String × ℚ) : Option (String × ℚ) :=
  (List.find? (fun e => decide (e.1 = k)) st).map (·.2)

/-- The LRU move-to-end performed by `_get_cached_response` on a hit. -/
def cacheTouch (st : LLMCache) (k : String × ℚ) (v : String × ℚ) : LLMCache :=
  List.filter (fun e => !decide (e.1 = k)) st ++ [(k, v)]

/-- `_cache_response`: evict the oldest entry when full, then assign
(`OrderedDict` assignment keeps the position of an existing key). -/
def cachePut (maxSize : ℕ) (st : LLMCache) (k : String × ℚ) (v : String × ℚ) : LLMCache :=
  let st' := if maxSize ≤ List.length st then List.drop 1 st else st
  if List.any st' (fun e => decide (e.1 = k)) then
    List.map (fun e => if e.1 = k then (k, v) else e) st'
  else st' ++ [(k, v)]

/-- Construction-time configuration of a `FastLLMClassifier`:
`self.available`, `self.confidence_threshold` (default 0.6 via
`LLM_CONFIDENCE_THRESHOLD`), `self.max_cache_size` (1000). -/
structure FLConfig where
  available : Bool
  threshold : ℚ
  maxCacheSize : ℕ
  deriving DecidableEq, Repr

/-- `FastLLMClassifier.classify`, returning the result and the updated cache.
Mirrors: availability gate; short-description gate; cache probe (a cached
tuple is always truthy); then, on a parsed reply with a truthy category and
confidence > 0.5, cache the pair and return it only if the confidence also
reaches the threshold — the threshold is *not* re-checked on the cache-hit
path. -/
def fastLLMClassify (cfg : FLConfig) (st : LLMCache) (tx : Tx)
    (api : Option (Option String × ℚ)) : (Option String × ℚ) × LLMCache :=
  if !cfg.available then ((none, 0), st)
  else
    let description := pyStrip tx.description
    if description.length < 3 then ((none, 0), st)
    else
      let key := cacheKey description tx.amount
      match cacheGet st key with
      | some r => ((some r.1, r.2), cacheTouch st key r)
      | none =>
        match api with
        | none => ((none, 0), st)
        | some (cat?, confidence) =>
          match cat? with
          | some category =>
            if confidence > 1/2 then
              ((if confidence ≥ cfg.threshold then (some category, confidence) else (none, 0)),
                cachePut cfg.maxCacheSize st key (category, confidence))
            else ((none, 0), st)
          | none => ((none, 0), st)

/-! ### The sweep's missing `progress_callback` parameter

`AutoClassificationEngine.auto_classify_uncategorized`
(`src/classifiers/auto_classify.py:375`, and identically
`src/auto_classify.py:278`) is declared
`def auto_classify_uncategorized(self, confidence_threshold=0.7, max_suggestions=100)`.
`AutoClassificationTask.run` (`background_tasks_fixed.py:338`) invokes
`self.logic.auto_classify_uncategorized(progress_callback=self.progress_callback)`
with a keyword argument.  `BudgetLogic` (`logic.py`) defines no
`auto_classify_uncategorized` at all, and neither engine signature has the
keyword, so the call raises in either case.  Python keyword-call legality is
modelled on the declared parameter-name list. -/

/-- The declared (non-`self`) parameter names of
`AutoClassificationEngine.auto_classify_uncategorized`. -/
def autoClassifyUncategorizedParams : List String :=
  ["confidence_threshold", "max_suggestions"]

/-- Python call semantics: a keyword argument is accepted iff it names a
declared parameter (no `**kwargs` is present on the callee). -/
def acceptsKeywordArg (params : List String) (kw : String) : Bool :=
  params.contains kw

/-- Calling with a set of keyword arguments raises `TypeError` unless every
keyword names a declared parameter. -/
def pyKwCall (params : List String) (kwargs : List String) : Except String Unit :=
  if kwargs.all (fun kw => acceptsKeywordArg params kw) then Except.ok ()
  else Except.error "TypeError: unexpected keyword argument"

/-! ### BackgroundTaskManager (`background_tasks_fixed.py`)

The `background_tasks` table is a list of rows; each SQL statement is one
atomic list transformation; `NOW()` timestamps are modelled as "was set"
flags.  Thread identity is a natural number; liveness of threads is an
environment parameter `alive : ℕ → Bool` (for the single-state operations) or
an explicit alive-set inside the state (for the interleaving model). -/

/-- The `status` column. -/
inductive Status
  | pending
  | running
  | completed
  | failed
  deriving DecidableEq, Repr

/-- One row of `background_tasks`. -/
structure TaskRow where
  id : ℕ
  status : Status
  progress : ℤ
  total : ℤ
  currentItem : Option String := none
  resultData : Option String := none
  errorMessage : Option String := none
  startedAt : Bool := false
  completedAt : Bool := false
  deriving DecidableEq, Repr

/-- `UPDATE background_tasks SET ... WHERE id = %s`: apply `g` to the rows
with the given id. -/
def updAt (taskId : ℕ) (g : TaskRow → TaskRow) (s : List TaskRow) : List TaskRow :=
  s.map fun r => if r.id = taskId then g r else r

/-- The row update of `_cleanup_stuck_tasks`:
`SET status='failed', error_message='Task thread died unexpectedly', completed_at=NOW() WHERE status='running'`. -/
def cleanupRow (r : TaskRow) : TaskRow :=
  if r.status = .running then
    { r with status := .failed, errorMessage := some "Task thread died unexpectedly",
             completedAt := true }
  else r

/-- `BackgroundTaskManager._cleanup_stuck_tasks` (the single SQL UPDATE). -/
def cleanupStuckTasks (s : List TaskRow) : List TaskRow := s.map cleanupRow

/-- In-memory manager state: the task store plus `self._current_task_thread`. -/
structure MgrState where
  store : List TaskRow
  handle : Option ℕ
  deriving DecidableEq, Repr

/-- `BackgroundTaskManager.is_task_running` (the whole body runs under
`self._current_task_lock`): returns `True` iff the handle is set and its
thread is alive; if the handle is set but the thread is dead, clears the
handle and sweeps the store before returning `False`. -/
def isTaskRunning (alive : ℕ → Bool) (s : MgrState) : Bool × MgrState :=
  match s.handle with
  | some t =>
    if alive t then (true, s)
    else (false, ⟨cleanupStuckTasks s.store, none⟩)
  | none => (false, s)

/-- `BackgroundTaskManager.recover_system`: under the lock, clear the handle
if its thread is dead, then sweep the store unconditionally. -/
def recoverSystem (alive : ℕ → Bool) (s : MgrState) : MgrState :=
  let handle' :=
    match s.handle with
    | some t => if alive t then some t else none
    | none => none
  ⟨cleanupStuckTasks s.store, handle'⟩

/-- `start_task`: `SET status='running', started_at=NOW() WHERE id=%s`. -/
def applyStart (taskId : ℕ) (s : List TaskRow) : List TaskRow :=
  updAt taskId (fun r => { r with status := .running, startedAt := true }) s

/-- `update_task_progress`'s SQL:
`SET progress=%s, current_item=%s WHERE id=%s`. -/
def applyProgress (taskId : ℕ) (p : ℤ) (item : Option String) (s : List TaskRow) :
    List TaskRow :=
  updAt taskId (fun r => { r with progress := p, currentItem := item }) s

/-- `complete_task`'s SQL: `SET status='completed', completed_at=NOW(),
progress=total, result_data=%s WHERE id=%s`. -/
def applyComplete (taskId : ℕ) (res : String) (s : List TaskRow) : List TaskRow :=
  updAt taskId (fun r =>
    { r with status := .completed, completedAt := true, progress := r.total,
             resultData := some res }) s

/-- `fail_task`'s SQL: `SET status='failed', completed_at=NOW(),
error_message=%s WHERE id=%s`. -/
def applyFail (taskId : ℕ) (err : String) (s : List TaskRow) : List TaskRow :=
  updAt taskId (fun r =>
    { r with status := .failed, completedAt := true, errorMessage := some err }) s

/-- A store write (`cur.execute(...); self.db.conn.commit()`) that may raise;
`dbFails` says whether this particular write raises. -/
def attemptWrite (dbFails : Bool) (f : List TaskRow → List TaskRow)
    (s : List TaskRow) : Except String (List TaskRow) :=
  if dbFails then Except.error "database write failed" else Except.ok (f s)

/-- `BackgroundTaskManager.update_task_progress`: the `except` clause only
logs — the error is swallowed and the store is left as it was. -/
def updateTaskProgress (dbFails : Bool) (s : List TaskRow) (taskId : ℕ) (p : ℤ)
    (item : Option String) : Except String (List TaskRow) :=
  match attemptWrite dbFails (applyProgress taskId p item) s with
  | .ok s' => .ok s'
  | .error _ => .ok s

/-- `BackgroundTaskManager.complete_task`: the `except` clause logs and then
re-`raise`s. -/
def completeTask (dbFails : Bool) (s : List TaskRow) (taskId : ℕ) (res : String) :
    Except String (List TaskRow) :=
  match attemptWrite dbFails (applyComplete taskId res) s with
  | .ok s' => .ok s'
  | .error e => .error e

/-- `BackgroundTaskManager.fail_task`: the `except` clause logs and then
re-`raise`s. -/
def failTask (dbFails : Bool) (s : List TaskRow) (taskId : ℕ) (err : String) :
    Except String (List TaskRow) :=
  match attemptWrite dbFails (applyFail taskId err) s with
  | .ok s' => .ok s'
  | .error e => .error e

/-- Python `int(q)`: truncation toward zero. -/
def pyTrunc (q : ℚ) : ℤ := if 0 ≤ q then ⌊q⌋ else ⌈q⌉

/-- The percentage computed by the `progress_callback` closure in
`execute_task`: `int((current / total) * 100) if total > 0 else 0`. -/
def progressPercent (current total : ℤ) : ℤ :=
  if 0 < total then pyTrunc ((current : ℚ) / (total : ℚ) * 100) else 0

/-- One `progress_callback(current, total, current_item)` invocation by the
payload, paired with whether its store write fails. -/
structure ProgressEvent where
  current : ℤ
  total : ℤ
  item : Option String := none
  writeFails : Bool := false
  deriving DecidableEq, Repr

/-- The sequence of callback invocations performed by the payload, relayed
through `progress_callback` ∘ `update_task_progress`. -/
def runEvents (taskId : ℕ) : List ProgressEvent → List TaskRow → Except String (List TaskRow)
  | [], s => .ok s
  | e :: rest, s =>
    match updateTaskProgress e.writeFails s taskId (progressPercent e.current e.total) e.item with
    | .ok s' => runEvents taskId rest s'
    | .error err => .error err

/-- The `try` block of `task_runner` inside `execute_task` for a payload that
reports `events` and then returns `result` (`None` → the substituted default
message): `start_task`; the payload's progress callbacks; `complete_task`. -/
def taskRunnerTry (taskId : ℕ) (events : List ProgressEvent) (result : Option String)
    (completeFails : Bool) (s : List TaskRow) : Except String (List TaskRow) :=
  match runEvents taskId events (applyStart taskId s) with
  | .ok s' => completeTask completeFails s' taskId (result.getD "Task completed successfully")
  | .error e => .error e

/-- Status of the row with the given id (`find?` mirrors the primary key). -/
def statusOf (taskId : ℕ) (s : List TaskRow) : Option Status :=
  (List.find? (fun r => decide (r.id = taskId)) s).map (·.status)

/-- Progress column of the row with the given id. -/
def progressOf (taskId : ℕ) (s : List TaskRow) : Option ℤ :=
  (List.find? (fun r => decide (r.id = taskId)) s).map (·.progress)

/-- The sequence of values written to a task row's `progress` column over one
run: one percentage per callback invocation that reaches the store, then
`complete_task`'s final `progress = total`. -/
def persistedProgressValues (events : List ProgressEvent) (rowTotal : ℤ) : List ℤ :=
  (events.filter fun e => !e.writeFails).map (fun e => progressPercent e.current e.total) ++
    [rowTotal]

/-! ### The interleaving model of `execute_task`

`execute_task` is *not* a single critical section: the conflict check
(`is_task_running`, which locks internally) and the spawn
(`with self._current_task_lock: ... start()`) are two separate lock
acquisitions.  Each constructor below is one atomic (single-lock or
single-SQL) step; an execution interleaves the steps of concurrent calls,
with each call's own steps in program order and a call spawning only after
its check returned `False`. -/

/-- Global state for interleaved executions: the store, the handle, and the
set of live thread ids. -/
structure GState where
  store : List TaskRow
  handle : Option ℕ
  aliveSet : List ℕ
  deriving DecidableEq, Repr

/-- The conflict check of `execute_task` (`if self.is_task_running(): raise`);
one atomic step, `true` = the call raises "Another task is already running". -/
def gCheck (s : GState) : Bool × GState :=
  match s.handle with
  | some t =>
    if t ∈ s.aliveSet then (true, s)
    else (false, ⟨cleanupStuckTasks s.store, none, s.aliveSet⟩)
  | none => (false, s)

/-- The spawn section of `execute_task`
(`with self._current_task_lock: self._current_task_thread = Thread(...); ....start()`):
sets the handle and makes the new thread live; one atomic step. -/
def gSpawn (tid : ℕ) (s : GState) : GState :=
  ⟨s.store, some tid, tid :: s.aliveSet⟩

/-- The spawned worker's `start_task` write; one atomic step. -/
def gStart (taskId : ℕ) (s : GState) : GState :=
  ⟨applyStart taskId s.store, s.handle, s.aliveSet⟩

/-- Extract the store from a fallible operation, with a default for the
error case (used only to project states the theorems have already shown to
be `.ok`). -/
def exceptStore (d : List TaskRow) : Except String (List TaskRow) → List TaskRow
  | .ok s => s
  | .error _ => d

/-- The generic shape of the best-candidate loops in
`RuleBasedClassifier.classify`, `SuperFastClassifier._classify_with_patterns`
and `LearningClassifier.classify`: keep the candidate iff its score strictly
beats the best seen so far. -/
def bestStep {α β : Type} (f : β → ℚ) (g : β → α) (b : Option α × ℚ) (x : β) :
    Option α × ℚ :=
  if f x > b.2 then (some (g x), f x) else b

/-- The initial state for the interleaving counterexample: two pending task
rows, no handle, no live threads. -/
def raceInitialState : GState :=
  ⟨[⟨1, .pending, 0, 10, none, none, none, false, false⟩,
    ⟨2, .pending, 0, 10, none, none, none, false, false⟩], none, []⟩

/-- The state after the racing schedule `check_A; check_B; spawn_A(101);
spawn_B(102); start_A(task 1); start_B(task 2)` — a legal interleaving of two
`execute_task` calls, since each call's conflict check returned `false`
before its spawn (both checks run on `raceInitialState`). -/
def raceFinalState : GState :=
  gStart 2 (gStart 1 (gSpawn 102 (gSpawn 101 raceInitialState)))

end Budget

namespace Budget

/-! ### Helper lemmas -/

theorem foldl_bestStep_snd {α β : Type} (f : β → ℚ) (g : β → α) :
    ∀ (l : List β) (b : Option α × ℚ),
      (l.foldl (bestStep f g) b).2 = l.foldl (fun a x => max a (f x)) b.2 := by
  intro l
  induction l with
  | nil => intro b; rfl
  | cons x t ih =>
    intro b
    simp only [List.foldl_cons]
    rw [ih]
    congr 1
    by_cases h : f x > b.2
    · simp [bestStep, h, max_eq_right (le_of_lt h)]
    · simp [bestStep, h, max_eq_left (not_lt.mp h)]

theorem foldl_bestStep_result {α β : Type} (f : β → ℚ) (g : β → α) :
    ∀ (l : List β) (b : Option α × ℚ),
      l.foldl (bestStep f g) b = b ∨
        ∃ x ∈ l, l.foldl (bestStep f g) b = (some (g x), f x) := by
  intro l
  induction l with
  | nil => intro b; exact Or.inl rfl
  | cons x t ih =>
    intro b
    simp only [List.foldl_cons]
    rcases ih (bestStep f g b x) with h | ⟨y, hy, he⟩
    · by_cases hx : f x > b.2
      · exact Or.inr ⟨x, List.mem_cons_self x t, by rw [h]; simp [bestStep, hx]⟩
      · exact Or.inl (by rw [h]; simp [bestStep, hx])
    · exact Or.inr ⟨y, List.mem_cons_of_mem x hy, he⟩

theorem foldl_bestStep_keep {α β : Type} (f : β → ℚ) (g : β → α) :
    ∀ (l : List β) (b : Option α × ℚ), (∀ x ∈ l, f x ≤ b.2) →
      l.foldl (bestStep f g) b = b := by
  intro l
  induction l with
  | nil => intro b _; rfl
  | cons x t ih =>
    intro b h
    simp only [List.foldl_cons]
    have hx : ¬ f x > b.2 := not_lt.mpr (h x (List.mem_cons_self x t))
    have : bestStep f g b x = b := by simp [bestStep, hx]
    rw [this]
    exact ih b fun y hy => h y (List.mem_cons_of_mem x hy)

theorem init_le_foldl_max {β : Type} (f : β → ℚ) :
    ∀ (l : List β) (a : ℚ), a ≤ l.foldl (fun a x => max a (f x)) a := by
  intro l
  induction l with
  | nil => intro a; exact le_refl a
  | cons x t ih =>
    intro a
    simp only [List.foldl_cons]
    exact le_trans (le_max_left a (f x)) (ih (max a (f x)))

theorem mem_le_foldl_max {β : Type} (f : β → ℚ) :
    ∀ (l : List β) (a : ℚ), ∀ x ∈ l, f x ≤ l.foldl (fun a x => max a (f x)) a := by
  intro l
  induction l with
  | nil => intro a x hx; exact absurd hx (List.not_mem_nil x)
  | cons y t ih =>
    intro a x hx
    simp only [List.foldl_cons]
    rcases List.mem_cons.mp hx with h | h
    · subst h
      exact le_trans (le_max_right a (f x)) (init_le_foldl_max f t (max a (f x)))
    · exact ih (max a (f y)) x h

theorem foldl_ruleStep_eq_filter (desc : String) (amount : ℚ) :
    ∀ (l : List Rule) (b : Option String × ℚ),
      l.foldl (ruleStep desc amount) b =
        (l.filter fun r => ruleFilterOk r amount && ruleMatches r desc).foldl
          (bestStep Rule.confidence Rule.category) b := by
  intro l
  induction l with
  | nil => intro b; rfl
  | cons r t ih =>
    intro b
    simp only [List.foldl_cons, List.filter_cons]
    by_cases h1 : ruleFilterOk r amount
    · by_cases h2 : ruleMatches r desc
      · have : ruleStep desc amount b r = bestStep Rule.confidence Rule.category b r := by
          simp [ruleStep, bestStep, h1, h2]
        rw [this, h1, h2]
        simp only [Bool.and_self, if_true]
        exact ih (bestStep Rule.confidence Rule.category b r)
      · have : ruleStep desc amount b r = b := by
          simp [ruleStep, h1, h2]
        rw [this]
        have h2' : ruleMatches r desc = false := by simp [h2]
        rw [h1, h2']
        simp only [Bool.and_false, Bool.false_eq_true, if_false]
        exact ih b
    · have : ruleStep desc amount b r = b := by simp [ruleStep, h1]
      rw [this]
      have h1' : ruleFilterOk r amount = false := by simp at h1; exact h1
      rw [h1']
      simp only [Bool.false_and, Bool.false_eq_true, if_false]
      exact ih b

/-! ### Claim theorems -/

/-- C6: `RuleBasedClassifier.classify` (the spec's `PatternClassifier`)
depends on the description only through its uppercasing; rules whose
amount-sign filter is unsatisfied are skipped; it returns `(none, 0.0)` when
no rule matches; its returned confidence is the maximum confidence over all
matching rules (no early exit across rules); when one matching rule has
strictly the highest confidence, that rule's category and confidence are
returned, independently of where the rule sits in the list; and on
description `"LÖN AUGUSTI"` with amount `+28000.00` the income rule (amount
filter `positive`) fires, giving `("Inkomst", 0.95)`. -/
theorem c6_pattern_classifier_characterization (rules : List Rule) (tx : Tx) :
    ruleBasedClassify rules tx = ruleClassifyCore rules (pyUpper tx.description) tx.amount ∧
    (∀ r ∈ rules, r.amountFilter = some .positive → tx.amount ≤ 0 →
      r ∉ matchingRules rules tx) ∧
    (∀ r ∈ rules, r.amountFilter = some .negative → 0 ≤ tx.amount →
      r ∉ matchingRules rules tx) ∧
    (matchingRules rules tx = [] → ruleBasedClassify rules tx = (none, 0)) ∧
    (ruleBasedClassify rules tx).2 = maxConf (matchingRules rules tx) ∧
    (∀ r ∈ matchingRules rules tx, 0 < r.confidence →
      (∀ r' ∈ matchingRules rules tx, r' ≠ r → r'.confidence < r.confidence) →
      ruleBasedClassify rules tx = (some r.category, r.confidence)) ∧
    ruleBasedClassify defaultRules ⟨"LÖN AUGUSTI", 28000⟩ = (some "Inkomst", 19/20) := by
  have hfold : ruleBasedClassify rules tx =
      (matchingRules rules tx).foldl (bestStep Rule.confidence Rule.category) (none, 0) := by
    unfold ruleBasedClassify ruleClassifyCore matchingRules
    exact foldl_ruleStep_eq_filter (pyUpper tx.description) tx.amount rules (none, 0)
  have hsnd : (ruleBasedClassify rules tx).2 = maxConf (matchingRules rules tx) := by
    rw [hfold]
    exact foldl_bestStep_snd Rule.confidence Rule.category (matchingRules rules tx) (none, 0)
  refine ⟨rfl, ?_, ?_, ?_, hsnd, ?_, by with_unfolding_all decide⟩
  · intro r _ hf ha
    simp only [matchingRules, List.mem_filter]
    rintro ⟨-, hpred⟩
    rw [ruleFilterOk, hf] at hpred
    simp [ha] at hpred
  · intro r _ hf ha
    simp only [matchingRules, List.mem_filter]
    rintro ⟨-, hpred⟩
    rw [ruleFilterOk, hf] at hpred
    simp [ha] at hpred
  · intro h
    rw [hfold, h]
    rfl
  · intro r hr hpos huniq
    rcases foldl_bestStep_result Rule.confidence Rule.category (matchingRules rules tx)
        (none, 0) with h | ⟨r', hr', he⟩
    · exfalso
      have h0 : maxConf (matchingRules rules tx) = 0 := by
        rw [← hsnd, hfold, h]
      have : r.confidence ≤ 0 := by
        have := mem_le_foldl_max Rule.confidence (matchingRules rules tx) 0 r hr
        rw [show (matchingRules rules tx).foldl (fun a x => max a x.confidence) 0 =
            maxConf (matchingRules rules tx) from rfl, h0] at this
        exact this
      exact absurd hpos (not_lt.mpr this)
    · have hre : ruleBasedClassify rules tx = (some r'.category, r'.confidence) := by
        rw [hfold]; exact he
      have hc' : r'.confidence = maxConf (matchingRules rules tx) := by
        have := hsnd
        rw [hre] at this
        exact this
      have hrr : r' = r := by
        by_contra hne
        have hlt := huniq r' hr' hne
        have hle : r.confidence ≤ maxConf (matchingRules rules tx) :=
          mem_le_foldl_max Rule.confidence (matchingRules rules tx) 0 r hr
        rw [← hc'] at hle
        exact absurd hlt (not_lt.mpr hle)
      rw [hrr] at hre
      exact hre

/-- C6 witness: the theorem applied to the income transaction, using the
strict-maximum conjunct at the income rule of `defaultRules`. -/
theorem c6_pattern_classifier_characterization_witness :
    ruleBasedClassify defaultRules ⟨"ICA SUPERMARKET STOCKHOLM", -901/2⟩ = (some "Mat", 9/10) := by
  have h := (c6_pattern_classifier_characterization defaultRules
      ⟨"ICA SUPERMARKET STOCKHOLM", -901/2⟩).2.2.2.2.2.1
  exact h ⟨[.lit "ICA", .lit "COOP", .lit "HEMKÖP", .lit "WILLYS", .lit "LIDL", .lit "NETTO"],
      "Mat", 9/10, none⟩
    (by with_unfolding_all decide) (by with_unfolding_all decide)
    (by with_unfolding_all decide)

theorem instantStep_update (cats : List String) (desc : String) (b : Option String × ℚ)
    (g : InstantGroup) (hm : g.patterns.any (fun p => p.search desc) = true)
    (hc : g.confidence > b.2) (hin : g.category ∈ cats) :
    instantStep cats desc b g = (some g.category, g.confidence) := by
  simp [instantStep, hm, hc, hin]

theorem instantStep_keep (cats : List String) (desc : String) (b : Option String × ℚ)
    (g : InstantGroup) (hc : g.confidence ≤ b.2) :
    instantStep cats desc b g = b := by
  have : ¬ g.confidence > b.2 := not_lt.mpr hc
  simp [instantStep, this]

theorem classifyWithPatterns_ica (cats : List String) (h : "Mat" ∈ cats) :
    classifyWithPatterns cats "ICA SUPERMARKET STOCKHOLM" = (some "Mat", 19/20) := by
  unfold classifyWithPatterns instantPatterns
  rw [List.foldl_cons,
    instantStep_update _ _ _ _ (by with_unfolding_all decide) (by with_unfolding_all decide) h]
  rw [List.foldl_cons, instantStep_keep _ _ _ _ (by with_unfolding_all decide)]
  rw [List.foldl_cons, instantStep_keep _ _ _ _ (by with_unfolding_all decide)]
  rw [List.foldl_cons, instantStep_keep _ _ _ _ (by with_unfolding_all decide)]
  rw [List.foldl_cons, instantStep_keep _ _ _ _ (by with_unfolding_all decide)]
  rw [List.foldl_cons, instantStep_keep _ _ _ _ (by with_unfolding_all decide)]
  rw [List.foldl_cons, instantStep_keep _ _ _ _ (by with_unfolding_all decide)]
  rw [List.foldl_nil]

/-- C1 counterexample: on description `"ICA SUPERMARKET STOCKHOLM"`, amount
`-450.50`, `RuleBasedClassifier.classify` (the spec's `PatternClassifier`)
returns `("Mat", 0.9)` — the ICA grocery rule's confidence is 0.9, and the
0.95 Systembolaget rule does not match — so it does not return the claimed
`("Mat", 0.95)`. -/
theorem c1_counterexample_pattern_confidence :
    ruleBasedClassify defaultRules ⟨"ICA SUPERMARKET STOCKHOLM", -901/2⟩ = (some "Mat", 9/10) ∧
    ruleBasedClassify defaultRules ⟨"ICA SUPERMARKET STOCKHOLM", -901/2⟩ ≠ (some "Mat", 19/20) := by
  with_unfolding_all decide

/-- C1 (amended): on description `"ICA SUPERMARKET STOCKHOLM"`, amount
`-450.50`, provided `"Mat"` is among the known categories,
`RuleBasedClassifier.classify` returns `("Mat", 0.9)` via the ICA grocery
rule, while `SuperFastClassifier.classify` (the spec's `HybridFastClassifier`)
returns `("Mat", 0.95)` via its tier-1 instant-pattern match
(`_classify_with_patterns` already yields `("Mat", 0.95)`, accepted because
`0.95 ≥ 0.85`, so tiers 2 and 3 never run) — the two classifiers do not
return the same result. -/
theorem c1_ica_pattern_vs_hybrid (cats : List String) (llm : Option (Tx → Option String × ℚ))
    (h : "Mat" ∈ cats) :
    ruleBasedClassify defaultRules ⟨"ICA SUPERMARKET STOCKHOLM", -901/2⟩ = (some "Mat", 9/10) ∧
    classifyWithPatterns cats "ICA SUPERMARKET STOCKHOLM" = (some "Mat", 19/20) ∧
    superFastClassify cats llm ⟨"ICA SUPERMARKET STOCKHOLM", -901/2⟩ = (some "Mat", 19/20) ∧
    ((some "Mat", (9 : ℚ)/10) : Option String × ℚ) ≠ (some "Mat", 19/20) := by
  have htier1 := classifyWithPatterns_ica cats h
  refine ⟨by with_unfolding_all decide, htier1, ?_, by with_unfolding_all decide⟩
  unfold superFastClassify
  have hstrip : pyStrip "ICA SUPERMARKET STOCKHOLM" = "ICA SUPERMARKET STOCKHOLM" := by
    with_unfolding_all decide
  simp only [hstrip]
  rw [if_neg (by with_unfolding_all decide), htier1, if_pos (by with_unfolding_all decide)]

/-- C1 witness: the amended theorem at the benchmark's `MockLogic` category
list and no LLM. -/
theorem c1_ica_pattern_vs_hybrid_witness :
    superFastClassify mockCategories none ⟨"ICA SUPERMARKET STOCKHOLM", -901/2⟩
      = (some "Mat", 19/20) :=
  (c1_ica_pattern_vs_hybrid mockCategories none (by with_unfolding_all decide)).2.2.1

theorem lcScore_eq_spec (p : CatPattern) (words : List String) (amount : ℚ)
    (hs : 0 ≤ p.amountStd) :
    lcScore p words amount = lcScoreSpec p words amount := by
  simp only [lcScore, lcScoreSpec]
  by_cases hw : p.commonWords.isEmpty
  · have hw' : p.commonWords = [] := List.isEmpty_iff.mp hw
    have hwcond : ¬ ((!p.commonWords.isEmpty) = true) := by simp [hw]
    have hm : (words.filter fun w => p.commonWords.contains w) = [] := by
      rw [hw']; simp
    rw [if_neg hwcond, hm, hw']
    simp only [List.length_nil, Nat.cast_zero, div_zero, mul_zero]
    rcases lt_or_eq_of_le hs with hpos | hzero
    · rw [if_pos hpos, if_neg (ne_of_gt hpos), mul_comm p.amountStd 2]
      ring
    · have hnotpos : ¬ (p.amountStd > 0) := by rw [← hzero]; exact lt_irrefl 0
      rw [if_neg hnotpos, if_pos hzero.symm]
  · have hw2 : (!p.commonWords.isEmpty) = true := by simp [hw]
    rw [if_pos hw2]
    rcases lt_or_eq_of_le hs with hpos | hzero
    · rw [if_pos hpos, if_neg (ne_of_gt hpos), mul_comm p.amountStd 2]
      ring
    · have hnotpos : ¬ (p.amountStd > 0) := by rw [← hzero]; exact lt_irrefl 0
      rw [if_neg hnotpos, if_pos hzero.symm]
      ring

/-- C7: for every transaction and every built, non-empty profile set (built
profiles have nonnegative standard deviations, being `math.sqrt` values),
`LearningClassifier.classify` scores every candidate category exactly by the
formula `0.7 × (overlap ÷ |word set|) + 0.3 × max(0, 1 − |amount − mean| /
(2 × stddev))` (amount term omitted when the stddev is 0) `+ min(0.1,
count/100)`, and returns a best-scoring category with confidence
`min(best, 0.95)` exactly when the best score exceeds 0.4, else `(none, 0.0)`. -/
theorem c7_learning_classifier_spec (pats : List (String × CatPattern)) (tx : Tx)
    (hne : pats ≠ []) (hσ : ∀ cp ∈ pats, 0 ≤ (Prod.snd cp).amountStd) :
    (∀ cp ∈ pats,
      lcScore cp.2 (descWords tx) tx.amount = lcScoreSpec cp.2 (descWords tx) tx.amount) ∧
    (maxLcScore pats (descWords tx) tx.amount > 2/5 →
      ∃ cp ∈ pats,
        lcScore cp.2 (descWords tx) tx.amount = maxLcScore pats (descWords tx) tx.amount ∧
        learningClassify pats tx =
          (some cp.1, min (maxLcScore pats (descWords tx) tx.amount) (19/20))) ∧
    (¬ maxLcScore pats (descWords tx) tx.amount > 2/5 →
      learningClassify pats tx = (none, 0)) := by
  have hstep : lcStep (descWords tx) tx.amount =
      bestStep (fun cp : String × CatPattern => lcScore cp.2 (descWords tx) tx.amount)
        Prod.fst := rfl
  have hisEmpty : pats.isEmpty = false := by
    cases pats with
    | nil => exact absurd rfl hne
    | cons a t => rfl
  have hsnd : (pats.foldl (lcStep (descWords tx) tx.amount) (none, 0)).2 =
      maxLcScore pats (descWords tx) tx.amount := by
    rw [hstep]
    exact foldl_bestStep_snd _ _ pats (none, 0)
  refine ⟨fun cp hcp => lcScore_eq_spec cp.2 (descWords tx) tx.amount (hσ cp hcp), ?_, ?_⟩
  · intro hbig
    rcases foldl_bestStep_result
        (fun cp : String × CatPattern => lcScore cp.2 (descWords tx) tx.amount) Prod.fst
        pats (none, 0) with h | ⟨cp, hcp, he⟩
    · exfalso
      have h0 : maxLcScore pats (descWords tx) tx.amount = 0 := by
        rw [← hsnd, hstep, h]
      rw [h0] at hbig
      norm_num at hbig
    · have hfold : pats.foldl (lcStep (descWords tx) tx.amount) (none, 0) =
          (some cp.1, lcScore cp.2 (descWords tx) tx.amount) := by
        rw [hstep]; exact he
      have hsc : lcScore cp.2 (descWords tx) tx.amount =
          maxLcScore pats (descWords tx) tx.amount := by
        rw [← hsnd, hfold]
      refine ⟨cp, hcp, hsc, ?_⟩
      simp only [learningClassify]
      rw [if_neg (show ¬ (pats.isEmpty = true) from by simp [hisEmpty])]
      rw [hfold]
      rw [if_pos (show ((some cp.1, lcScore cp.2 (descWords tx) tx.amount) :
            Option String × ℚ).2 > 2/5 from by rw [hsc]; exact hbig)]
      rw [hsc]
  · intro hsmall
    simp only [learningClassify]
    rw [if_neg (show ¬ (pats.isEmpty = true) from by simp [hisEmpty])]
    rw [if_neg (show ¬ ((pats.foldl (lcStep (descWords tx) tx.amount) (none, 0)).2 > 2/5)
          from by rw [hsnd]; exact hsmall)]

set_option maxRecDepth 8000 in
/-- C7 witness: the theorem applied to a one-category profile set
(`common_words = ["ICA", "SUPERMARKET"]`, mean −400, stddev 50, 10 samples)
and the ICA transaction; the score is
`0.7 + 0.3·(1 − 50.5/100) + 0.1 = 0.9485 > 0.4`. -/
theorem c7_learning_classifier_spec_witness :
    learningClassify [("Mat", ⟨["ICA", "SUPERMARKET"], -400, 50, 10⟩)]
      ⟨"ICA SUPERMARKET STOCKHOLM", -901/2⟩ = (some "Mat", 1897/2000) := by
  obtain ⟨hformula, hbest, -⟩ := c7_learning_classifier_spec
    [("Mat", ⟨["ICA", "SUPERMARKET"], -400, 50, 10⟩)] ⟨"ICA SUPERMARKET STOCKHOLM", -901/2⟩
    (by with_unfolding_all decide) (by with_unfolding_all decide)
  obtain ⟨cp, hmem, hsc, heq⟩ := hbest (by with_unfolding_all decide)
  rw [List.mem_singleton] at hmem
  subst hmem
  rw [heq]
  with_unfolding_all decide

theorem cleanupRow_idem (r : TaskRow) : cleanupRow (cleanupRow r) = cleanupRow r := by
  by_cases h : r.status = Status.running
  · unfold cleanupRow
    rw [if_pos h, if_neg (by simp)]
  · unfold cleanupRow
    rw [if_neg h, if_neg h]

theorem cleanupStuckTasks_idem (s : List TaskRow) :
    cleanupStuckTasks (cleanupStuckTasks s) = cleanupStuckTasks s := by
  unfold cleanupStuckTasks
  rw [List.map_map]
  have : cleanupRow ∘ cleanupRow = cleanupRow := funext cleanupRow_idem
  rw [this]

/-- C5: if the in-memory worker handle is non-nil but its thread is not
alive, `is_task_running()` returns `false`, clears the handle, and rewrites
the store with the orphan sweep: every row whose status is `running` becomes
`failed` with the fixed diagnostic message `"Task thread died unexpectedly"`
(shown here as containing the substring `"thread died unexpectedly"`) and a
set completion timestamp, while rows in any other status are untouched. -/
theorem c5_is_task_running_dead_thread (alive : ℕ → Bool) (s : MgrState) (t : ℕ)
    (hh : s.handle = some t) (hd : alive t = false) :
    (isTaskRunning alive s).1 = false ∧
    (isTaskRunning alive s).2.handle = none ∧
    (isTaskRunning alive s).2.store = s.store.map cleanupRow ∧
    (∀ r ∈ s.store, r.status = Status.running →
      cleanupRow r ∈ (isTaskRunning alive s).2.store ∧
      (cleanupRow r).status = Status.failed ∧
      (cleanupRow r).errorMessage = some ("Task " ++ "thread died unexpectedly") ∧
      (cleanupRow r).completedAt = true) ∧
    (∀ r ∈ s.store, r.status ≠ Status.running → cleanupRow r = r) := by
  have hrun : isTaskRunning alive s = (false, ⟨cleanupStuckTasks s.store, none⟩) := by
    simp [isTaskRunning, hh, hd]
  refine ⟨by rw [hrun], by rw [hrun], by rw [hrun]; rfl, ?_, ?_⟩
  · intro r hr hrs
    refine ⟨?_, ?_, ?_, ?_⟩
    · rw [hrun]
      exact List.mem_map_of_mem cleanupRow hr
    · unfold cleanupRow
      rw [if_pos hrs]
    · unfold cleanupRow
      rw [if_pos hrs]
      rfl
    · unfold cleanupRow
      rw [if_pos hrs]
  · intro r hr hrs
    unfold cleanupRow
    rw [if_neg hrs]

/-- C5 witness: the theorem applied to a store holding one `running` row and
a stale handle to the dead thread 7. -/
theorem c5_is_task_running_dead_thread_witness :
    (isTaskRunning (fun _ => false)
        ⟨[⟨1, Status.running, 40, 100, none, none, none, true, false⟩], some 7⟩).1 = false ∧
    (isTaskRunning (fun _ => false)
        ⟨[⟨1, Status.running, 40, 100, none, none, none, true, false⟩], some 7⟩).2.handle = none ∧
    (cleanupRow ⟨1, Status.running, 40, 100, none, none, none, true, false⟩).status
      = Status.failed := by
  obtain ⟨h1, h2, -, h4, -⟩ := c5_is_task_running_dead_thread (fun _ => false)
    ⟨[⟨1, Status.running, 40, 100, none, none, none, true, false⟩], some 7⟩ 7 rfl rfl
  obtain ⟨-, hst, -, -⟩ := h4 ⟨1, Status.running, 40, 100, none, none, none, true, false⟩
    (List.mem_singleton.mpr rfl) rfl
  exact ⟨h1, h2, hst⟩

/-- C8: with no live worker thread, `recover_system()` is idempotent — a
second consecutive call changes neither the task store (rows already `failed`
stay `failed`; the sweep maps `running` rows only, and there are none left)
nor the in-memory handle. -/
theorem c8_recover_system_idempotent (alive : ℕ → Bool) (s : MgrState)
    (hdead : ∀ t, alive t = false) :
    recoverSystem alive (recoverSystem alive s) = recoverSystem alive s := by
  have h1 : recoverSystem alive s = ⟨cleanupStuckTasks s.store, none⟩ := by
    cases hh : s.handle with
    | none => simp [recoverSystem, hh]
    | some t => simp [recoverSystem, hh, hdead t]
  rw [h1]
  have h2 : recoverSystem alive (⟨cleanupStuckTasks s.store, none⟩ : MgrState) =
      ⟨cleanupStuckTasks (cleanupStuckTasks s.store), none⟩ := by
    simp [recoverSystem]
  rw [h2, cleanupStuckTasks_idem]

/-- C8 witness: the theorem applied to a store with one `running` row, a
stale handle, and no live threads. -/
theorem c8_recover_system_idempotent_witness :
    recoverSystem (fun _ => false) (recoverSystem (fun _ => false)
        ⟨[⟨1, Status.running, 0, 10, none, none, none, true, false⟩], some 3⟩) =
      recoverSystem (fun _ => false)
        ⟨[⟨1, Status.running, 0, 10, none, none, none, true, false⟩], some 3⟩ :=
  c8_recover_system_idempotent (fun _ => false)
    ⟨[⟨1, Status.running, 0, 10, none, none, none, true, false⟩], some 3⟩ (fun _ => rfl)


theorem find?_updAt (taskId : ℕ) (g : TaskRow → TaskRow) (hg : ∀ r, (g r).id = r.id) :
    ∀ s : List TaskRow,
      List.find? (fun r => decide (r.id = taskId)) (updAt taskId g s) =
        (List.find? (fun r => decide (r.id = taskId)) s).map g := by
  intro s
  induction s with
  | nil => rfl
  | cons r t ih =>
    unfold updAt at ih ⊢
    simp only [List.map_cons]
    by_cases h : r.id = taskId
    · rw [if_pos h]
      simp [List.find?, hg r, h]
    · rw [if_neg h]
      simp only [List.find?, h, decide_False]
      exact ih

theorem find?_applyStart (taskId : ℕ) (s : List TaskRow) :
    List.find? (fun r => decide (r.id = taskId)) (applyStart taskId s) =
      (List.find? (fun r => decide (r.id = taskId)) s).map
        (fun r => { r with status := Status.running, startedAt := true }) :=
  find?_updAt taskId
    (fun r => { r with status := Status.running, startedAt := true }) (fun _ => rfl) s

theorem find?_applyProgress (taskId : ℕ) (p : ℤ) (item : Option String) (s : List TaskRow) :
    List.find? (fun r => decide (r.id = taskId)) (applyProgress taskId p item s) =
      (List.find? (fun r => decide (r.id = taskId)) s).map
        (fun r => { r with progress := p, currentItem := item }) :=
  find?_updAt taskId (fun r => { r with progress := p, currentItem := item }) (fun _ => rfl) s

theorem find?_applyComplete (taskId : ℕ) (res : String) (s : List TaskRow) :
    List.find? (fun r => decide (r.id = taskId)) (applyComplete taskId res s) =
      (List.find? (fun r => decide (r.id = taskId)) s).map
        (fun r => { r with status := Status.completed, completedAt := true,
                           progress := r.total, resultData := some res }) :=
  find?_updAt taskId
    (fun r => { r with status := Status.completed, completedAt := true,
                       progress := r.total, resultData := some res }) (fun _ => rfl) s

theorem updateTaskProgress_ok (dbFails : Bool) (s : List TaskRow) (taskId : ℕ) (p : ℤ)
    (item : Option String) :
    updateTaskProgress dbFails s taskId p item =
      .ok (if dbFails then s else applyProgress taskId p item s) := by
  cases dbFails <;> rfl

theorem runEvents_ok (taskId : ℕ) :
    ∀ (events : List ProgressEvent) (s : List TaskRow),
      ∃ s', runEvents taskId events s = .ok s' ∧
        (List.find? (fun r => decide (r.id = taskId)) s').isSome =
          (List.find? (fun r => decide (r.id = taskId)) s).isSome := by
  intro events
  induction events with
  | nil => intro s; exact ⟨s, rfl, rfl⟩
  | cons e rest ih =>
    intro s
    obtain ⟨s', h1, h2⟩ := ih
      (if e.writeFails then s
       else applyProgress taskId (progressPercent e.current e.total) e.item s)
    refine ⟨s', ?_, ?_⟩
    · show runEvents taskId (e :: rest) s = .ok s'
      unfold runEvents
      rw [updateTaskProgress_ok]
      exact h1
    · rw [h2]
      cases hf : e.writeFails
      · simp only [hf, Bool.false_eq_true, if_false]
        rw [find?_applyProgress, Option.isSome_map']
      · simp [hf]

/-- C9 (implicit): a failing store write inside `update_task_progress` is
caught there and never propagated — the call always returns normally (with
the store unchanged when the write failed) — whereas `complete_task` and
`fail_task` re-raise on a failing write; consequently a worker whose
progress persists fail in any pattern still runs to `complete_task`, and its
row finishes `completed`. -/
theorem c9_progress_persist_failure_isolated :
    (∀ (dbFails : Bool) (s : List TaskRow) (taskId : ℕ) (p : ℤ) (item : Option String),
      ∃ s', updateTaskProgress dbFails s taskId p item = .ok s') ∧
    (∀ (s : List TaskRow) (taskId : ℕ) (res : String),
      completeTask true s taskId res = .error "database write failed") ∧
    (∀ (s : List TaskRow) (taskId : ℕ) (err : String),
      failTask true s taskId err = .error "database write failed") ∧
    (∀ (taskId : ℕ) (events : List ProgressEvent) (result : Option String) (s : List TaskRow),
      ∃ s', taskRunnerTry taskId events result false s =
          .ok (applyComplete taskId (result.getD "Task completed successfully") s') ∧
        ((List.find? (fun r => decide (r.id = taskId)) s).isSome →
          statusOf taskId (applyComplete taskId (result.getD "Task completed successfully") s') =
            some Status.completed)) := by
  refine ⟨?_, fun s taskId res => rfl, fun s taskId err => rfl, ?_⟩
  · intro dbFails s taskId p item
    exact ⟨_, updateTaskProgress_ok dbFails s taskId p item⟩
  · intro taskId events result s
    obtain ⟨s', h1, h2⟩ := runEvents_ok taskId events (applyStart taskId s)
    refine ⟨s', ?_, ?_⟩
    · unfold taskRunnerTry
      rw [h1]
      rfl
    · intro hsome
      have hs' : (List.find? (fun r => decide (r.id = taskId)) s').isSome = true := by
        rw [h2, find?_applyStart, Option.isSome_map']
        exact hsome
      obtain ⟨r, hr⟩ := Option.isSome_iff_exists.mp hs'
      unfold statusOf
      rw [find?_applyComplete, hr]
      rfl

/-- C9 witness: the theorem applied to a one-row store whose single progress
persist fails: `complete_task` with a failing write raises, while the worker
with the failing progress write still completes its row. -/
theorem c9_progress_persist_failure_isolated_witness :
    completeTask true [] 1 "m" = .error "database write failed" ∧
    statusOf 1 (exceptStore [] (taskRunnerTry 1 [⟨1, 4, none, true⟩] none false
        [⟨1, Status.pending, 0, 4, none, none, none, false, false⟩])) =
      some Status.completed := by
  obtain ⟨-, h2, -, h4⟩ := c9_progress_persist_failure_isolated
  obtain ⟨s', hs1, hs2⟩ := h4 1 [⟨1, 4, none, true⟩] none
    [⟨1, Status.pending, 0, 4, none, none, none, false, false⟩]
  refine ⟨h2 [] 1 "m", ?_⟩
  rw [hs1]
  exact hs2 (by decide)


theorem pyTrunc_mono {a b : ℚ} (h : a ≤ b) : pyTrunc a ≤ pyTrunc b := by
  unfold pyTrunc
  by_cases ha : 0 ≤ a
  · rw [if_pos ha, if_pos (le_trans ha h)]
    exact Int.floor_le_floor h
  · by_cases hb : 0 ≤ b
    · rw [if_neg ha, if_pos hb]
      calc ⌈a⌉ ≤ 0 := Int.ceil_le.mpr (by exact_mod_cast le_of_lt (not_le.mp ha))
        _ ≤ ⌊b⌋ := Int.floor_nonneg.mpr hb
    · rw [if_neg ha, if_neg hb]
      exact Int.ceil_le_ceil h

theorem progressPercent_mono (total : ℤ) (hpos : 0 < total) {c c' : ℤ} (h : c ≤ c') :
    progressPercent c total ≤ progressPercent c' total := by
  unfold progressPercent
  rw [if_pos hpos, if_pos hpos]
  apply pyTrunc_mono
  have ht : (0 : ℚ) < (total : ℚ) := by exact_mod_cast hpos
  have hc : (c : ℚ) ≤ (c' : ℚ) := by exact_mod_cast h
  have hdiv : (c : ℚ) / (total : ℚ) ≤ (c' : ℚ) / (total : ℚ) :=
    (div_le_div_iff_of_pos_right ht).mpr hc
  exact mul_le_mul_of_nonneg_right hdiv (by norm_num)

/-- C3 (amended): the percentages persisted by `execute_task`'s
`progress_callback` are non-decreasing provided the payload reports
non-decreasing `current` values against a fixed positive `total`, and
`complete_task`'s final write sets the row's `progress` column to the row's
`total`; the final value can be *smaller* than the last persisted percentage
(units mismatch: percentages 0..100 versus a raw total, see the
counterexample), so the full persisted sequence need not be non-decreasing. -/
theorem c3_progress_values_amended :
    (∀ total : ℤ, 0 < total → ∀ c c' : ℤ, c ≤ c' →
      progressPercent c total ≤ progressPercent c' total) ∧
    (∀ (cs : List ℤ) (total : ℤ), 0 < total → List.Chain' (· ≤ ·) cs →
      List.Chain' (· ≤ ·) (cs.map fun c => progressPercent c total)) ∧
    (∀ (s : List TaskRow) (taskId : ℕ) (res : String),
      List.find? (fun r => decide (r.id = taskId)) (applyComplete taskId res s) =
        (List.find? (fun r => decide (r.id = taskId)) s).map
          (fun r => { r with status := Status.completed, completedAt := true,
                             progress := r.total, resultData := some res })) := by
  refine ⟨fun total hpos c c' h => progressPercent_mono total hpos h, ?_,
    fun s taskId res => find?_applyComplete taskId res s⟩
  intro cs total hpos hchain
  rw [List.chain'_map]
  exact hchain.imp fun a b hab => progressPercent_mono total hpos hab

/-- C3 witness: the amended theorem applied to `total = 4` and reported
currents `1 ≤ 3`. -/
theorem c3_progress_values_amended_witness :
    progressPercent 1 4 ≤ progressPercent 3 4 :=
  c3_progress_values_amended.1 4 (by decide) 1 3 (by decide)

/-- C3 counterexample: a task created with `total = 5` whose payload reports
`progress_callback(5, 5)` and then returns: the callback persists the
percentage `int((5/5)*100) = 100`, and `complete_task` then persists
`progress = total = 5` — the persisted sequence `[100, 5]` is decreasing
(though its final value does equal the task's total). -/
theorem c3_counterexample_percent_then_total :
    persistedProgressValues [⟨5, 5, none, false⟩] 5 = [100, 5] ∧
    ¬ List.Chain' (· ≤ ·) (persistedProgressValues [⟨5, 5, none, false⟩] 5) ∧
    progressOf 1 (exceptStore [] (runEvents 1 [⟨5, 5, none, false⟩]
        (applyStart 1 [⟨1, Status.pending, 0, 5, none, none, none, false, false⟩])))
      = some 100 ∧
    progressOf 1 (exceptStore [] (taskRunnerTry 1 [⟨5, 5, none, false⟩] none false
        [⟨1, Status.pending, 0, 5, none, none, none, false, false⟩])) = some 5 := by
  refine ⟨by with_unfolding_all decide, ?_,
    by with_unfolding_all decide, by with_unfolding_all decide⟩
  have heq : persistedProgressValues [⟨5, 5, none, false⟩] 5 = [100, 5] := by
    with_unfolding_all decide
  rw [heq]
  intro hch
  rw [List.chain'_cons] at hch
  exact absurd hch.1 (by decide)

/-- C4 (amended): any `execute_task` call whose conflict check
(`is_task_running`) runs while the previously spawned worker's thread is
alive raises the conflict error ("Another task is already running") and
changes nothing — in particular it spawns no worker.  Because the check and
the spawn are two separate lock acquisitions, this binds only calls whose
check observes the spawned worker; see the counterexample for two overlapping
calls that both pass their checks first. -/
theorem c4_execute_task_conflict_when_alive (s : GState) (t : ℕ)
    (hh : s.handle = some t) (ha : t ∈ s.aliveSet) :
    gCheck s = (true, s) := by
  simp [gCheck, hh, ha]

/-- C4 witness: the amended theorem applied to the state right after
spawning worker 101. -/
theorem c4_execute_task_conflict_when_alive_witness :
    gCheck (gSpawn 101 raceInitialState) = (true, gSpawn 101 raceInitialState) :=
  c4_execute_task_conflict_when_alive (gSpawn 101 raceInitialState) 101 rfl
    (by with_unfolding_all decide)

/-- C4 counterexample: the legal interleaving `check_A; check_B; spawn_A(101);
spawn_B(102); start_A(task 1); start_B(task 2)` of two `execute_task` calls.
Both checks return `false` without changing the state (so call B does not
raise), yet when B spawns, A's worker 101 is already alive with its task
still `pending` (neither `completed` nor `failed`); afterwards both rows are
`running` simultaneously — refuting "every further call raises" and "at most
one row is in running state at any time". -/
theorem c4_counterexample_double_spawn :
    (gCheck raceInitialState).1 = false ∧
    (gCheck raceInitialState).2 = raceInitialState ∧
    (gSpawn 101 raceInitialState).handle = some 101 ∧
    101 ∈ (gSpawn 101 raceInitialState).aliveSet ∧
    statusOf 1 (gSpawn 101 raceInitialState).store = some Status.pending ∧
    statusOf 1 raceFinalState.store = some Status.running ∧
    statusOf 2 raceFinalState.store = some Status.running := by
  with_unfolding_all decide


theorem find?_append_singleton {α : Type} (p : α → Bool) (x : α) :
    ∀ l : List α, List.find? p l = none → List.find? p (l ++ [x]) = List.find? p [x] := by
  intro l
  induction l with
  | nil => intro _; rfl
  | cons a t ih =>
    intro h
    rw [List.find?_eq_none] at h
    cases hpa : p a with
    | true =>
      exact absurd hpa (by simpa using h a (List.mem_cons_self a t))
    | false =>
      have h' : List.find? p t = none :=
        List.find?_eq_none.mpr fun y hy => h y (List.mem_cons_of_mem a hy)
      show List.find? p (a :: (t ++ [x])) = _
      simp only [List.find?, hpa]
      exact ih h'

theorem find?_drop_none {α : Type} (p : α → Bool) (l : List α) (n : ℕ)
    (h : List.find? p l = none) : List.find? p (l.drop n) = none := by
  rw [List.find?_eq_none] at h ⊢
  exact fun x hx => h x (List.mem_of_mem_drop hx)

theorem cacheGet_put_self (m : ℕ) (st : LLMCache) (k : String × ℚ) (v : String × ℚ)
    (h : cacheGet st k = none) : cacheGet (cachePut m st k v) k = some v := by
  have hf : List.find? (fun e => decide (e.1 = k)) st = none := by
    cases hfind : List.find? (fun e => decide (e.1 = k)) st with
    | none => rfl
    | some e =>
      unfold cacheGet at h
      rw [hfind] at h
      exact Option.noConfusion h
  unfold cachePut
  by_cases hm : m ≤ List.length st
  · have hf' : List.find? (fun e => decide (e.1 = k)) (List.drop 1 st) = none :=
      find?_drop_none _ st 1 hf
    rw [if_pos hm]
    have hany : List.any (List.drop 1 st) (fun e => decide (e.1 = k)) = false := by
      rw [List.any_eq_false]
      intro x hx
      have := (List.find?_eq_none.mp hf') x hx
      simpa using this
    rw [if_neg (by rw [hany]; exact Bool.false_ne_true)]
    unfold cacheGet
    rw [find?_append_singleton _ _ _ hf']
    simp [List.find?]
  · rw [if_neg hm]
    have hany : List.any st (fun e => decide (e.1 = k)) = false := by
      rw [List.any_eq_false]
      intro x hx
      have := (List.find?_eq_none.mp hf) x hx
      simpa using this
    rw [if_neg (by rw [hany]; exact Bool.false_ne_true)]
    unfold cacheGet
    rw [find?_append_singleton _ _ _ hf]
    simp [List.find?]

/-- C10 (implicit): when a parsed LLM reply carries a known category with
confidence `c` satisfying `0.5 < c < confidence_threshold`, the first
`FastLLMClassifier.classify` call returns `(none, 0.0)` yet stores
`(category, c)` in the cache, and a second call for the same transaction (same
normalized description, same amount rounded to the nearest 10, hence the same
cache key) returns `(category, c)` regardless of the second reply — the
threshold is not re-applied on the cache-hit path, so two identical calls
return different results. -/
theorem c10_fast_llm_cache_skips_threshold (cfg : FLConfig) (st : LLMCache) (tx : Tx)
    (cat : String) (c : ℚ)
    (hav : cfg.available = true)
    (hlen : ¬ (pyStrip tx.description).length < 3)
    (hmiss : cacheGet st (cacheKey (pyStrip tx.description) tx.amount) = none)
    (h05 : c > 1/2) (hth : c < cfg.threshold) :
    (fastLLMClassify cfg st tx (some (some cat, c))).1 = (none, 0) ∧
    cacheGet (fastLLMClassify cfg st tx (some (some cat, c))).2
        (cacheKey (pyStrip tx.description) tx.amount) = some (cat, c) ∧
    (∀ api₂ : Option (Option String × ℚ),
      (fastLLMClassify cfg (fastLLMClassify cfg st tx (some (some cat, c))).2 tx api₂).1
        = (some cat, c)) ∧
    ((none, 0) : Option String × ℚ) ≠ ((some cat, c) : Option String × ℚ) := by
  have hth' : ¬ c ≥ cfg.threshold := not_le.mpr hth
  have h1 : fastLLMClassify cfg st tx (some (some cat, c)) =
      ((none, 0),
        cachePut cfg.maxCacheSize st (cacheKey (pyStrip tx.description) tx.amount) (cat, c)) := by
    unfold fastLLMClassify
    rw [hav]
    simp only [Bool.not_true, Bool.false_eq_true, if_false]
    rw [if_neg hlen, hmiss]
    simp only
    rw [if_pos h05, if_neg hth']
  have h2 : cacheGet (fastLLMClassify cfg st tx (some (some cat, c))).2
      (cacheKey (pyStrip tx.description) tx.amount) = some (cat, c) := by
    rw [h1]
    exact cacheGet_put_self _ _ _ _ hmiss
  have hhit : ∀ (st2 : LLMCache) (api₂ : Option (Option String × ℚ)),
      cacheGet st2 (cacheKey (pyStrip tx.description) tx.amount) = some (cat, c) →
      (fastLLMClassify cfg st2 tx api₂).1 = (some cat, c) := by
    intro st2 api₂ hget
    unfold fastLLMClassify
    rw [hav]
    simp only [Bool.not_true, Bool.false_eq_true, if_false]
    rw [if_neg hlen, hget]
  exact ⟨by rw [h1], h2, fun api₂ => hhit _ api₂ h2, by simp⟩

/-- C10 witness: the theorem at threshold 0.6 (the default), an empty cache,
and a reply parsed as `("Nöje", 0.55)`. -/
theorem c10_fast_llm_cache_skips_threshold_witness :
    (fastLLMClassify ⟨true, 3/5, 1000⟩ [] ⟨"SWISH BETALNING ONLINE", -250⟩
        (some (some "Nöje", 11/20))).1 = (none, 0) ∧
    (∀ api₂ : Option (Option String × ℚ),
      (fastLLMClassify ⟨true, 3/5, 1000⟩
          (fastLLMClassify ⟨true, 3/5, 1000⟩ [] ⟨"SWISH BETALNING ONLINE", -250⟩
            (some (some "Nöje", 11/20))).2
          ⟨"SWISH BETALNING ONLINE", -250⟩ api₂).1 = (some "Nöje", 11/20)) := by
  obtain ⟨h1, -, h3, -⟩ := c10_fast_llm_cache_skips_threshold ⟨true, 3/5, 1000⟩ []
    ⟨"SWISH BETALNING ONLINE", -250⟩ "Nöje" (11/20) rfl
    (by with_unfolding_all decide) rfl
    (by with_unfolding_all decide) (by with_unfolding_all decide)
  exact ⟨h1, h3⟩

/-- C2: `AutoClassificationEngine.auto_classify_uncategorized` declares only
the parameters `confidence_threshold` and `max_suggestions`; it accepts no
`progress_callback` keyword, so the keyword call that
`AutoClassificationTask.run` performs
(`self.logic.auto_classify_uncategorized(progress_callback=...)`) cannot
succeed against it (and `BudgetLogic` has no such method at all). -/
theorem c2_no_progress_callback_parameter :
    acceptsKeywordArg autoClassifyUncategorizedParams "progress_callback" = false ∧
    pyKwCall autoClassifyUncategorizedParams ["progress_callback"]
      = Except.error "TypeError: unexpected keyword argument" ∧
    pyKwCall autoClassifyUncategorizedParams ["confidence_threshold"] = Except.ok () := by
  refine ⟨by with_unfolding_all decide, by with_unfolding_all rfl, by with_unfolding_all rfl⟩

end Budget
